import Mathlib

/-!
Verification development for the sodafoundation/anomaly-detection repository.

The Python sources are shallowly embedded as executable Lean definitions:

* `NpJson`   — `anomaly_detection/utils/np_json.py` (tagged JSON envelopes for
  numpy arrays, numpy scalars, sets, tuples, complex numbers and byte strings,
  together with the `json.dumps`/`json.loads` behaviour they are plugged into).
* `Cfg`      — `anomaly_detection/utils/config.py` (the option registry
  `ConfigOpts`, its lookup precedence, its resolution cache and its mutators).
* `ML`       — `anomaly_detection/ml/manager.py`, `ml/algorithm.py`,
  `ml/csv/__init__.py`, `ml/algorithms/gaussian.py`, `ml/algorithms/dbscan.py`.

Machine floating-point quantities that only feed order comparisons and argmax
selections (log densities, F1 scores, adjusted Rand scores, grid coordinates)
are modelled as exact rationals; byte-level content of serialized numpy arrays
is modelled by the element byte patterns themselves, so "bit identical" is
literal list equality of byte values.
-/

namespace NpJson

/-! ### base64 (Python `base64.b64encode` / `base64.b64decode`)

Bytes are `Nat < 256`.  `b64encodeCodes` returns the ASCII codes of the
base64 text, exactly as Python's `b64encode` returns a `bytes` object.
61 is the ASCII code of the padding character.  Python's `b64decode`
(with its default lenient validation) decodes any string produced by
`b64encode`; only such strings arise in `np_json`, and on them the model
below agrees with CPython.  -/

def b64Alphabet : List Nat :=
  [65, 66, 67, 68, 69, 70, 71, 72, 73, 74, 75, 76, 77, 78, 79, 80, 81, 82,
   83, 84, 85, 86, 87, 88, 89, 90,
   97, 98, 99, 100, 101, 102, 103, 104, 105, 106, 107, 108, 109, 110, 111,
   112, 113, 114, 115, 116, 117, 118, 119, 120, 121, 122,
   48, 49, 50, 51, 52, 53, 54, 55, 56, 57, 43, 47]

def b64CodeOf (n : Nat) : Nat := b64Alphabet.getD n 0

def b64ValOf (c : Nat) : Option Nat :=
  (List.range 64).find? (fun n => b64CodeOf n = c)

def b64encodeCodes : List Nat → List Nat
  | [] => []
  | [b1] => [b64CodeOf (b1 / 4), b64CodeOf (b1 % 4 * 16), 61, 61]
  | [b1, b2] => [b64CodeOf (b1 / 4), b64CodeOf (b1 % 4 * 16 + b2 / 16),
                 b64CodeOf (b2 % 16 * 4), 61]
  | b1 :: b2 :: b3 :: rest =>
      b64CodeOf (b1 / 4) :: b64CodeOf (b1 % 4 * 16 + b2 / 16) ::
      b64CodeOf (b2 % 16 * 4 + b3 / 64) :: b64CodeOf (b3 % 64) ::
      b64encodeCodes rest

def b64decodeCodes : List Nat → Except String (List Nat)
  | [] => .ok []
  | c1 :: c2 :: c3 :: c4 :: rest =>
      match b64ValOf c1, b64ValOf c2 with
      | some v1, some v2 =>
        if c3 = 61 then
          if c4 = 61 ∧ rest = [] then .ok [v1 * 4 + v2 / 16]
          else .error "Invalid base64-encoded string"
        else
          match b64ValOf c3 with
          | some v3 =>
            if c4 = 61 then
              if rest = [] then .ok [v1 * 4 + v2 / 16, v2 % 16 * 16 + v3 / 4]
              else .error "Invalid base64-encoded string"
            else
              match b64ValOf c4 with
              | some v4 =>
                match b64decodeCodes rest with
                | .ok tl => .ok ((v1 * 4 + v2 / 16) :: (v2 % 16 * 16 + v3 / 4) ::
                                 (v3 % 4 * 64 + v4) :: tl)
                | .error e => .error e
              | none => .error "Invalid base64-encoded string"
          | none => .error "Invalid base64-encoded string"
      | _, _ => .error "Invalid base64-encoded string"
  | _ => .error "Invalid base64-encoded string"

theorem b64ValOf_b64CodeOf_all : ∀ n < 64, b64ValOf (b64CodeOf n) = some n := by
  decide

theorem b64ValOf_b64CodeOf {n : Nat} (h : n < 64) : b64ValOf (b64CodeOf n) = some n :=
  b64ValOf_b64CodeOf_all n h

theorem b64CodeOf_ne_61_all : ∀ n < 64, b64CodeOf n ≠ 61 := by
  decide

theorem b64CodeOf_ne_61 {n : Nat} (h : n < 64) : b64CodeOf n ≠ 61 :=
  b64CodeOf_ne_61_all n h

theorem b64CodeOf_lt_128 (n : Nat) : b64CodeOf n < 128 := by
  by_cases h : n < 64
  · revert h
    revert n
    decide
  · unfold b64CodeOf
    rw [List.getD_eq_default]
    · omega
    · simp only [b64Alphabet, List.length]
      omega

theorem b64encodeCodes_lt_128 (bs : List Nat) :
    ∀ c ∈ b64encodeCodes bs, c < 128 := by
  induction bs using b64encodeCodes.induct with
  | case1 => intro c hc; simp [b64encodeCodes] at hc
  | case2 b1 =>
    intro c hc
    simp only [b64encodeCodes, List.mem_cons, List.not_mem_nil, or_false] at hc
    rcases hc with h | h | h | h <;> subst h <;> first | exact b64CodeOf_lt_128 _ | omega
  | case3 b1 b2 =>
    intro c hc
    simp only [b64encodeCodes, List.mem_cons, List.not_mem_nil, or_false] at hc
    rcases hc with h | h | h | h <;> subst h <;> first | exact b64CodeOf_lt_128 _ | omega
  | case4 b1 b2 b3 rest ih =>
    intro c hc
    simp only [b64encodeCodes, List.mem_cons] at hc
    rcases hc with h | h | h | h | h
    · subst h; exact b64CodeOf_lt_128 _
    · subst h; exact b64CodeOf_lt_128 _
    · subst h; exact b64CodeOf_lt_128 _
    · subst h; exact b64CodeOf_lt_128 _
    · exact ih c h

theorem b64decode_b64encode (bs : List Nat) (h : ∀ b ∈ bs, b < 256) :
    b64decodeCodes (b64encodeCodes bs) = .ok bs := by
  induction bs using b64encodeCodes.induct with
  | case1 => rfl
  | case2 b1 =>
    have hb1 : b1 < 256 := h b1 (by simp)
    have h1 : b1 / 4 < 64 := by omega
    have h2 : b1 % 4 * 16 < 64 := by omega
    have e0 : b1 % 4 * 16 / 16 = b1 % 4 := by omega
    have e1 : b1 / 4 * 4 + b1 % 4 * 16 / 16 = b1 := by
      rw [e0]
      omega
    simp only [b64encodeCodes, b64decodeCodes, b64ValOf_b64CodeOf h1,
      b64ValOf_b64CodeOf h2, e1, and_self, if_true]
  | case3 b1 b2 =>
    have hb1 : b1 < 256 := h b1 (by simp)
    have hb2 : b2 < 256 := h b2 (by simp)
    have h1 : b1 / 4 < 64 := by omega
    have h2 : b1 % 4 * 16 + b2 / 16 < 64 := by omega
    have h3 : b2 % 16 * 4 < 64 := by omega
    have e1 : b1 / 4 * 4 + (b1 % 4 * 16 + b2 / 16) / 16 = b1 := by
      have : (b1 % 4 * 16 + b2 / 16) / 16 = b1 % 4 := by omega
      rw [this]
      omega
    have e2 : (b1 % 4 * 16 + b2 / 16) % 16 * 16 + b2 % 16 * 4 / 4 = b2 := by
      have ha : (b1 % 4 * 16 + b2 / 16) % 16 = b2 / 16 := by omega
      have hb : b2 % 16 * 4 / 4 = b2 % 16 := by omega
      rw [ha, hb]
      omega
    simp only [b64encodeCodes, b64decodeCodes, b64ValOf_b64CodeOf h1,
      b64ValOf_b64CodeOf h2, b64ValOf_b64CodeOf h3,
      if_neg (b64CodeOf_ne_61 h3), e1, e2, and_self, if_true]
  | case4 b1 b2 b3 rest ih =>
    have hb1 : b1 < 256 := h b1 (by simp)
    have hb2 : b2 < 256 := h b2 (by simp)
    have hb3 : b3 < 256 := h b3 (by simp)
    have hrest : ∀ b ∈ rest, b < 256 := fun b hb => h b (by simp [hb])
    have h1 : b1 / 4 < 64 := by omega
    have h2 : b1 % 4 * 16 + b2 / 16 < 64 := by omega
    have h3 : b2 % 16 * 4 + b3 / 64 < 64 := by omega
    have h4 : b3 % 64 < 64 := by omega
    have e1 : b1 / 4 * 4 + (b1 % 4 * 16 + b2 / 16) / 16 = b1 := by
      have : (b1 % 4 * 16 + b2 / 16) / 16 = b1 % 4 := by omega
      rw [this]
      omega
    have e2 : (b1 % 4 * 16 + b2 / 16) % 16 * 16 + (b2 % 16 * 4 + b3 / 64) / 4 = b2 := by
      have ha : (b1 % 4 * 16 + b2 / 16) % 16 = b2 / 16 := by omega
      have hb : (b2 % 16 * 4 + b3 / 64) / 4 = b2 % 16 := by omega
      rw [ha, hb]
      omega
    have e3 : (b2 % 16 * 4 + b3 / 64) % 4 * 64 + b3 % 64 = b3 := by
      have ha : (b2 % 16 * 4 + b3 / 64) % 4 = b3 / 64 := by omega
      rw [ha]
      omega
    simp only [b64encodeCodes, b64decodeCodes, b64ValOf_b64CodeOf h1,
      b64ValOf_b64CodeOf h2, b64ValOf_b64CodeOf h3, b64ValOf_b64CodeOf h4,
      if_neg (b64CodeOf_ne_61 h3), if_neg (b64CodeOf_ne_61 h4), ih hrest,
      e1, e2, e3, and_self, if_true]

/-! ### ASCII carriage of base64 text

`bytes.decode()` turns the ASCII codes into a text string (the `__bytes__`
envelope stores a `str`); `b64decode` accepts either a `str` or a `bytes`
argument.  -/

def strOfCodes (codes : List Nat) : String := String.mk (codes.map Char.ofNat)

def codesOfStr (s : String) : List Nat := s.data.map Char.toNat

theorem toNat_ofNat_of_lt_128 : ∀ c : Nat, c < 128 → (Char.ofNat c).toNat = c := by
  decide

theorem codesOfStr_strOfCodes (codes : List Nat) (h : ∀ c ∈ codes, c < 128) :
    codesOfStr (strOfCodes codes) = codes := by
  unfold codesOfStr strOfCodes
  simp only [List.map_map]
  induction codes with
  | nil => rfl
  | cons c cs ih =>
    simp only [List.map_cons, Function.comp_apply]
    rw [toNat_ofNat_of_lt_128 c (h c (by simp)), ih (fun x hx => h x (by simp [hx]))]

/-! ### numpy element byte patterns

An array element of width `w` bytes is modelled by its byte pattern read as a
little-endian natural number (`< 256^w`).  `bytesOfElems` models
`ndarray.tostring()` (C-order flattening of the element byte patterns);
`elemsOfBytes` models `np.fromstring(..., dtype)`, which fails unless the
byte count is a multiple of the element size.  -/

def toLEBytes : Nat → Nat → List Nat
  | 0, _ => []
  | w + 1, v => v % 256 :: toLEBytes w (v / 256)

def fromLEBytes : List Nat → Nat
  | [] => 0
  | b :: bs => b + 256 * fromLEBytes bs

def bytesOfElems (w : Nat) (elems : List Nat) : List Nat :=
  elems.flatMap (toLEBytes w)

def elemsOfBytes (w : Nat) (bs : List Nat) : Except String (List Nat) :=
  if w = 0 then .error "data type has itemsize zero"
  else if hb : bs = [] then .ok []
  else if bs.length < w then .error "string size must be a multiple of element size"
  else
    match elemsOfBytes w (bs.drop w) with
    | .ok rest => .ok (fromLEBytes (bs.take w) :: rest)
    | .error e => .error e
termination_by bs.length
decreasing_by
  have : bs.length ≠ 0 := by
    intro hlen
    exact hb (List.eq_nil_of_length_eq_zero hlen)
  simp only [List.length_drop]
  omega

theorem length_toLEBytes (w v : Nat) : (toLEBytes w v).length = w := by
  induction w generalizing v with
  | zero => rfl
  | succ w ih => simp [toLEBytes, ih]

theorem toLEBytes_lt_256 (w v : Nat) : ∀ b ∈ toLEBytes w v, b < 256 := by
  induction w generalizing v with
  | zero => intro b hb; simp [toLEBytes] at hb
  | succ w ih =>
    intro b hb
    simp only [toLEBytes, List.mem_cons] at hb
    rcases hb with h | h
    · omega
    · exact ih (v / 256) b h

theorem fromLEBytes_toLEBytes (w v : Nat) (h : v < 256 ^ w) :
    fromLEBytes (toLEBytes w v) = v := by
  induction w generalizing v with
  | zero =>
    simp only [pow_zero, Nat.lt_one_iff] at h
    simp [toLEBytes, fromLEBytes, h]
  | succ w ih =>
    have hdiv : v / 256 < 256 ^ w := by
      rw [Nat.div_lt_iff_lt_mul (by omega)]
      calc v < 256 ^ (w + 1) := h
        _ = 256 ^ w * 256 := by ring
    simp only [toLEBytes, fromLEBytes, ih (v / 256) hdiv]
    omega

theorem elemsOfBytes_bytesOfElems (w : Nat) (hw : 0 < w) (elems : List Nat)
    (h : ∀ e ∈ elems, e < 256 ^ w) :
    elemsOfBytes w (bytesOfElems w elems) = .ok elems := by
  induction elems with
  | nil =>
    rw [elemsOfBytes]
    simp [bytesOfElems]
    omega
  | cons e es ih =>
    have he : e < 256 ^ w := h e (by simp)
    have hes : ∀ x ∈ es, x < 256 ^ w := fun x hx => h x (by simp [hx])
    have hlen : (toLEBytes w e).length = w := length_toLEBytes w e
    have hflat : bytesOfElems w (e :: es) = toLEBytes w e ++ bytesOfElems w es := by
      simp [bytesOfElems]
    rw [elemsOfBytes, hflat]
    have hne : ¬(toLEBytes w e ++ bytesOfElems w es = []) := by
      intro hnil
      have := congrArg List.length hnil
      simp [hlen] at this
      omega
    have hlength : ¬((toLEBytes w e ++ bytesOfElems w es).length < w) := by
      simp only [List.length_append, hlen]
      omega
    simp only [if_neg (by omega : ¬w = 0), dif_neg hne, if_neg hlength]
    have hdrop : (toLEBytes w e ++ bytesOfElems w es).drop w = bytesOfElems w es := by
      rw [List.drop_append_of_le_length (by omega)]
      simp [hlen]
    have htake : (toLEBytes w e ++ bytesOfElems w es).take w = toLEBytes w e := by
      rw [List.take_append_of_le_length (by omega)]
      simp [hlen]
    rw [hdrop, htake, ih hes, fromLEBytes_toLEBytes w e he]

theorem bytesOfElems_lt_256 (w : Nat) (elems : List Nat) :
    ∀ b ∈ bytesOfElems w elems, b < 256 := by
  intro b hb
  simp only [bytesOfElems, List.mem_flatMap] at hb
  obtain ⟨e, _, hbe⟩ := hb
  exact toLEBytes_lt_256 w e b hbe

/-! ### Python values and JSON trees

`PyVal` models the Python values that can appear in a model-parameter
document; `JsonVal` models the JSON tree produced by `json.dumps` /
consumed by `json.loads` (text rendering and parsing of the JSON tree is
the identity on this representation: CPython renders floats with
`repr`, which round-trips every finite double exactly).

Floats are carried by their 64-bit IEEE-754 bit pattern.  A numpy
`float64` scalar is a subclass of Python `float`, so `json.dumps`
serializes it as a plain JSON number (the `__npgeneric__` envelope is
reached only by non-`float` numpy scalars such as `int64` and `bool_`);
this is reflected in `encode` below.  -/

inductive Dtype where
  | f8
  | i8
  | b1
deriving DecidableEq, Repr

def Dtype.str : Dtype → String
  | .f8 => "<f8"
  | .i8 => "<i8"
  | .b1 => "|b1"

def Dtype.itemsize : Dtype → Nat
  | .f8 => 8
  | .i8 => 8
  | .b1 => 1

def dtypeOfStr (s : String) : Except String Dtype :=
  if s = "<f8" then .ok .f8
  else if s = "<i8" then .ok .i8
  else if s = "|b1" then .ok .b1
  else .error "data type not understood"

inductive PyVal where
  | pnone
  | pbool (b : Bool)
  | pint (n : Int)
  | pfloat (bits : Nat)
  | pstr (s : String)
  | pbytes (bs : List Nat)
  | plist (xs : List PyVal)
  | ptuple (xs : List PyVal)
  | pset (xs : List PyVal)
  | pcomplex (repr : String)
  | pdict (kvs : List (String × PyVal))
  | ndarray (dt : Dtype) (shape : List Nat) (data : List Nat)
  | npgeneric (dt : Dtype) (v : Nat)

inductive JsonVal where
  | jnull
  | jbool (b : Bool)
  | jint (n : Int)
  | jfloat (bits : Nat)
  | jstr (s : String)
  | jarr (xs : List JsonVal)
  | jobj (kvs : List (String × JsonVal))

/-- The six reserved marker keys of `np_json.from_json`. -/
def markerKeys : List String :=
  ["__ndarray__", "__npgeneric__", "__set__", "__tuple__", "__complex__", "__bytes__"]

/-- Encoding of a Python `bytes` value: `json.dumps` cannot serialize it
natively, so `to_json` wraps it as
`\x7b'__bytes__': base64.b64encode(obj).decode()\x7d`. -/
def bytesEnvelope (bs : List Nat) : JsonVal :=
  .jobj [("__bytes__", .jstr (strOfCodes (b64encodeCodes bs)))]

/-! `encode` models `json.dumps(x, default=to_json)` on the JSON tree level.
The base encoder handles `None`, `bool`, `int`, `float` (including numpy
`float64`), `str`, `list`, `tuple` (as a JSON array) and `dict` natively;
every other type is passed to `np_json.to_json`, whose envelope dict is then
encoded recursively.  The envelope cases below inline exactly the dicts
built by `to_json`: note that `'__ndarray__'`/`'__npgeneric__'` carry the
`bytes` object returned by `base64.b64encode`, which the base encoder again
routes through `to_json` as a `__bytes__` envelope, and that `obj.shape` is
a tuple, which the base encoder writes as a JSON array.  -/

mutual

def encode : PyVal → JsonVal
  | .pnone => .jnull
  | .pbool b => .jbool b
  | .pint n => .jint n
  | .pfloat bits => .jfloat bits
  | .pstr s => .jstr s
  | .plist xs => .jarr (encodeArr xs)
  | .ptuple xs => .jarr (encodeArr xs)
  | .pdict kvs => .jobj (encodeObj kvs)
  | .pbytes bs => bytesEnvelope bs
  | .pset xs => .jobj [("__set__", .jarr (encodeArr xs))]
  | .pcomplex r => .jobj [("__complex__", .jstr r)]
  | .ndarray dt shape data =>
      .jobj [("__ndarray__", bytesEnvelope (b64encodeCodes (bytesOfElems dt.itemsize data))),
             ("dtype", .jstr dt.str),
             ("shape", .jarr (shape.map (fun n => .jint (Int.ofNat n))))]
  | .npgeneric dt v =>
      match dt with
      | .f8 => .jfloat v
      | .i8 => .jobj [("__npgeneric__", bytesEnvelope (b64encodeCodes (toLEBytes 8 v))),
                      ("dtype", .jstr Dtype.i8.str)]
      | .b1 => .jobj [("__npgeneric__", bytesEnvelope (b64encodeCodes (toLEBytes 1 v))),
                      ("dtype", .jstr Dtype.b1.str)]

def encodeArr : List PyVal → List JsonVal
  | [] => []
  | x :: xs => encode x :: encodeArr xs

def encodeObj : List (String × PyVal) → List (String × JsonVal)
  | [] => []
  | (k, v) :: kvs => (k, encode v) :: encodeObj kvs

end

/-- Verbatim model of `np_json.to_json`, the `default` hook of `dumps`:
the envelope dict built for each type the base JSON encoder cannot
serialize (any other object raises the `TypeError`).  Note the
`__ndarray__`/`__npgeneric__` payloads are the `bytes` returned by
`base64.b64encode` and `shape` is the tuple `obj.shape`; when the dict
is encoded recursively these become a nested `__bytes__` envelope and a
JSON array.  `encode` above inlines exactly this routing — except for
tuples, which the base encoder serializes as JSON arrays before
consulting `default`, leaving the `__tuple__` branch dead under `dumps`
(see `encode_matches_to_json`). -/
def to_json : PyVal → Except String PyVal
  | .ndarray dt shape data =>
      .ok (.pdict [("__ndarray__", .pbytes (b64encodeCodes (bytesOfElems dt.itemsize data))),
                   ("dtype", .pstr dt.str),
                   ("shape", .ptuple (shape.map (fun n => .pint (Int.ofNat n))))])
  | .npgeneric dt v =>
      .ok (.pdict [("__npgeneric__", .pbytes (b64encodeCodes (toLEBytes dt.itemsize v))),
                   ("dtype", .pstr dt.str)])
  | .pset xs => .ok (.pdict [("__set__", .plist xs)])
  | .ptuple xs => .ok (.pdict [("__tuple__", .plist xs)])
  | .pcomplex r => .ok (.pdict [("__complex__", .pstr r)])
  | .pbytes bs => .ok (.pdict [("__bytes__", .pstr (strOfCodes (b64encodeCodes bs)))])
  | _ => .error "Unable to serialise object"

theorem encodeArr_map_pint (l : List Nat) :
    encodeArr (l.map (fun n => .pint (Int.ofNat n))) =
      l.map (fun n => .jint (Int.ofNat n)) := by
  induction l with
  | nil => rfl
  | cons n rest ih => simp only [List.map_cons, encodeArr, encode, ih]

/-- On every value the base JSON encoder hands to `default` — bytes,
sets, complex numbers, arrays, and non-`float` numpy scalars — `encode`
agrees with encoding the `to_json` envelope; tuples and `float64`
scalars never reach `default` (the base encoder serializes them as JSON
arrays resp. JSON numbers first). -/
theorem encode_matches_to_json (bs : List Nat) (xs : List PyVal) (r : String)
    (dt : Dtype) (shape data : List Nat) (v : Nat) (hdt : dt ≠ .f8) :
    (∀ y, to_json (.pbytes bs) = .ok y → encode (.pbytes bs) = encode y) ∧
    (∀ y, to_json (.pset xs) = .ok y → encode (.pset xs) = encode y) ∧
    (∀ y, to_json (.pcomplex r) = .ok y → encode (.pcomplex r) = encode y) ∧
    (∀ y, to_json (.ndarray dt shape data) = .ok y →
      encode (.ndarray dt shape data) = encode y) ∧
    (∀ y, to_json (.npgeneric dt v) = .ok y → encode (.npgeneric dt v) = encode y) := by
  refine ⟨?_, ?_, ?_, ?_, ?_⟩
  · intro y hy
    injection hy with hy
    subst hy
    rfl
  · intro y hy
    injection hy with hy
    subst hy
    rfl
  · intro y hy
    injection hy with hy
    subst hy
    rfl
  · intro y hy
    injection hy with hy
    subst hy
    cases dt with
    | f8 =>
        simp only [encode, encodeObj, encodeArr_map_pint]
    | i8 =>
        simp only [encode, encodeObj, encodeArr_map_pint]
    | b1 =>
        simp only [encode, encodeObj, encodeArr_map_pint]
  · intro y hy
    injection hy with hy
    subst hy
    cases dt with
    | f8 => exact absurd rfl hdt
    | i8 => rfl
    | b1 => rfl

/-- First-match key lookup in a decoded JSON object (Python dicts have
unique keys, so first-match agrees with dict indexing). -/
def lookupKey (kvs : List (String × PyVal)) (k : String) : Option PyVal :=
  match kvs with
  | [] => none
  | (k', v) :: rest => if k' = k then some v else lookupKey rest k

/-- Argument acceptable to `base64.b64decode`: either a `bytes` object or an
ASCII `str`. -/
def asB64Arg : PyVal → Except String (List Nat)
  | .pbytes bs => .ok bs
  | .pstr s => .ok (codesOfStr s)
  | _ => .error "argument should be a bytes-like object or ASCII string"

/-- Conversion of the decoded `'shape'` list to array dimensions.
`np.reshape` would additionally accept a single `-1` entry as an inferred
dimension; `obj.shape` never contains negative entries, so the model rejects
them. -/
def shapeOfList : List PyVal → Except String (List Nat)
  | [] => .ok []
  | .pint n :: rest =>
      if n < 0 then .error "negative dimensions are not allowed"
      else
        match shapeOfList rest with
        | .ok dims => .ok (n.toNat :: dims)
        | .error e => .error e
  | _ => .error "sequence expected for shape"

/-- Model of `np_json.from_json`, the `object_hook` applied to every decoded
JSON object, bottom-up.  The marker keys are probed in source order. -/
def from_json (kvs : List (String × PyVal)) : Except String PyVal :=
  match lookupKey kvs "__ndarray__" with
  | some v =>
      (do
        let codes ← asB64Arg v
        let raw ← b64decodeCodes codes
        let dt ← match lookupKey kvs "dtype" with
                 | some (.pstr s) => dtypeOfStr s
                 | _ => .error "data type not understood"
        let elems ← elemsOfBytes dt.itemsize raw
        let shape ← match lookupKey kvs "shape" with
                    | some (.plist xs) => shapeOfList xs
                    | _ => .error "sequence expected for shape"
        if shape.prod = elems.length then .ok (.ndarray dt shape elems)
        else .error "cannot reshape array")
  | none =>
  match lookupKey kvs "__npgeneric__" with
  | some v =>
      (do
        let codes ← asB64Arg v
        let raw ← b64decodeCodes codes
        let dt ← match lookupKey kvs "dtype" with
                 | some (.pstr s) => dtypeOfStr s
                 | _ => .error "data type not understood"
        let elems ← elemsOfBytes dt.itemsize raw
        match elems with
        | e :: _ => .ok (.npgeneric dt e)
        | [] => .error "index 0 is out of bounds")
  | none =>
  match lookupKey kvs "__set__" with
  | some (.plist xs) => .ok (.pset xs)
  | some _ => .error "object is not iterable"
  | none =>
  match lookupKey kvs "__tuple__" with
  | some (.plist xs) => .ok (.ptuple xs)
  | some _ => .error "object is not iterable"
  | none =>
  match lookupKey kvs "__complex__" with
  | some (.pstr s) => .ok (.pcomplex s)
  | some _ => .error "complex argument must be a string or a number"
  | none =>
  match lookupKey kvs "__bytes__" with
  | some v =>
      (do
        let codes ← asB64Arg v
        let bs ← b64decodeCodes codes
        .ok (.pbytes bs))
  | none => .ok (.pdict kvs)

/-! `decode` models `json.loads(s, object_hook=from_json)` on the JSON tree
level: every JSON object is decoded bottom-up and passed through the hook. -/

mutual

def decode : JsonVal → Except String PyVal
  | .jnull => .ok .pnone
  | .jbool b => .ok (.pbool b)
  | .jint n => .ok (.pint n)
  | .jfloat bits => .ok (.pfloat bits)
  | .jstr s => .ok (.pstr s)
  | .jarr xs =>
      match decodeArr xs with
      | .ok ys => .ok (.plist ys)
      | .error e => .error e
  | .jobj kvs =>
      match decodeObj kvs with
      | .ok kvs' => from_json kvs'
      | .error e => .error e

def decodeArr : List JsonVal → Except String (List PyVal)
  | [] => .ok []
  | x :: xs =>
      match decode x, decodeArr xs with
      | .ok y, .ok ys => .ok (y :: ys)
      | .error e, _ => .error e
      | _, .error e => .error e

def decodeObj : List (String × JsonVal) → Except String (List (String × PyVal))
  | [] => .ok []
  | (k, v) :: kvs =>
      match decode v, decodeObj kvs with
      | .ok y, .ok ys => .ok ((k, y) :: ys)
      | .error e, _ => .error e
      | _, .error e => .error e

end

/-- Model of `np_json.dumps` (up to JSON text rendering, which is injective
and inverted exactly by the parser on this representation). -/
def dumps (x : PyVal) : JsonVal := encode x

/-- Model of `np_json.loads`. -/
def loads (j : JsonVal) : Except String PyVal := decode j

/-- NaN bit patterns: exponent all ones, non-zero mantissa.  `json`
round-trips NaN textually but `float('nan') == float('nan')` is `False`,
so NaN payloads are excluded from the round-trip well-formedness below. -/
def isNanBits (bits : Nat) : Bool :=
  decide ((bits / 2 ^ 52) % 2 ^ 11 = 2047) && decide (bits % 2 ^ 52 ≠ 0)

def noMarkers (kvs : List (String × PyVal)) : Bool :=
  kvs.all (fun kv => !(markerKeys.contains kv.1))

/-! `wf` delimits the values for which the round-trip is claimed: dict keys
avoid the reserved marker keys and are unique, bytes are bytes, array data
matches the declared shape and element width, floats are finite doubles or
infinities (not NaN), and — the two genuine exclusions — no tuples (the base
JSON encoder turns them into arrays before `to_json` is consulted) and no
`float64` scalars (serialized as plain JSON numbers, they come back as
Python floats: numerically equal but not the same type). -/

mutual

def wf : PyVal → Bool
  | .pnone => true
  | .pbool _ => true
  | .pint _ => true
  | .pfloat bits => decide (bits < 2 ^ 64) && !(isNanBits bits)
  | .pstr _ => true
  | .pbytes bs => bs.all (fun b => decide (b < 256))
  | .plist xs => wfArr xs
  | .ptuple _ => false
  | .pset xs => wfArr xs
  | .pcomplex _ => true
  | .pdict kvs => noMarkers kvs && decide ((kvs.map Prod.fst).Nodup) && wfObj kvs
  | .ndarray dt shape data =>
      decide (data.length = shape.prod) && data.all (fun e => decide (e < 256 ^ dt.itemsize))
  | .npgeneric dt v => decide (dt ≠ .f8) && decide (v < 256 ^ dt.itemsize)

def wfArr : List PyVal → Bool
  | [] => true
  | x :: xs => wf x && wfArr xs

def wfObj : List (String × PyVal) → Bool
  | [] => true
  | (_, v) :: kvs => wf v && wfObj kvs

end

theorem except_bind_ok {ε α β : Type} (a : α) (f : α → Except ε β) :
    (Except.ok a : Except ε α) >>= f = f a := rfl

theorem lookupKey_eq_none (kvs : List (String × PyVal)) (k : String)
    (h : ∀ kv ∈ kvs, kv.1 ≠ k) : lookupKey kvs k = none := by
  induction kvs with
  | nil => rfl
  | cons kv rest ih =>
    obtain ⟨k', v⟩ := kv
    have hne : k' ≠ k := h (k', v) (by simp)
    simp only [lookupKey, if_neg hne]
    exact ih (fun kv hkv => h kv (by simp [hkv]))

theorem from_json_noMarkers (kvs : List (String × PyVal)) (h : noMarkers kvs = true) :
    from_json kvs = .ok (.pdict kvs) := by
  have hmem : ∀ m ∈ markerKeys, lookupKey kvs m = none := by
    intro m hm
    apply lookupKey_eq_none
    intro kv hkv hk
    have := (List.all_eq_true.mp h) kv hkv
    simp only [Bool.not_eq_true'] at this
    rw [hk] at this
    simp at this
    exact this hm
  have h1 := hmem "__ndarray__" (by simp [markerKeys])
  have h2 := hmem "__npgeneric__" (by simp [markerKeys])
  have h3 := hmem "__set__" (by simp [markerKeys])
  have h4 := hmem "__tuple__" (by simp [markerKeys])
  have h5 := hmem "__complex__" (by simp [markerKeys])
  have h6 := hmem "__bytes__" (by simp [markerKeys])
  simp only [from_json, h1, h2, h3, h4, h5, h6]

theorem decode_bytesEnvelope (bs : List Nat) (h : ∀ b ∈ bs, b < 256) :
    decode (bytesEnvelope bs) = .ok (.pbytes bs) := by
  have hlt : ∀ c ∈ b64encodeCodes bs, c < 128 := b64encodeCodes_lt_128 bs
  simp only [bytesEnvelope, decode, decodeObj]
  simp only [from_json, lookupKey]
  norm_num
  simp only [asB64Arg, codesOfStr_strOfCodes _ hlt, except_bind_ok,
    b64decode_b64encode bs h, except_bind_ok]
  rfl

theorem dtypeOfStr_str (dt : Dtype) : dtypeOfStr dt.str = .ok dt := by
  cases dt <;> rfl

theorem Dtype.itemsize_pos (dt : Dtype) : 0 < dt.itemsize := by
  cases dt <;> simp [Dtype.itemsize]

theorem decodeArr_map_jint (l : List Nat) :
    decodeArr (l.map (fun n => .jint (Int.ofNat n))) =
      .ok (l.map (fun n => .pint (Int.ofNat n))) := by
  induction l with
  | nil => rfl
  | cons n rest ih => simp only [List.map_cons, decodeArr, decode, ih]

theorem shapeOfList_map (shape : List Nat) :
    shapeOfList (shape.map (fun n => .pint (Int.ofNat n))) = .ok shape := by
  induction shape with
  | nil => rfl
  | cons n rest ih =>
    simp only [List.map_cons, shapeOfList, ih]
    rw [if_neg (by simp [Int.ofNat])]
    simp [Int.toNat_ofNat]

/-! ### Round-trip of `loads` after `dumps` on well-formed values -/

theorem decode_jstr (s : String) : decode (.jstr s) = .ok (.pstr s) := rfl

theorem decode_jarr_ok {xs : List JsonVal} {ys : List PyVal}
    (h : decodeArr xs = .ok ys) : decode (.jarr xs) = .ok (.plist ys) := by
  simp [decode, h]

theorem decode_jobj {kvs : List (String × JsonVal)} {kvs' : List (String × PyVal)}
    (h : decodeObj kvs = .ok kvs') : decode (.jobj kvs) = from_json kvs' := by
  simp [decode, h]

mutual

theorem decode_encode : ∀ (x : PyVal), wf x = true → decode (encode x) = .ok x
  | .pnone, _ => rfl
  | .pbool b, _ => rfl
  | .pint n, _ => rfl
  | .pfloat bits, _ => rfl
  | .pstr s, _ => rfl
  | .pbytes bs, h => by
      have hb : ∀ b ∈ bs, b < 256 := by
        simp only [wf, List.all_eq_true, decide_eq_true_eq] at h
        exact h
      exact decode_bytesEnvelope bs hb
  | .plist xs, h => by
      have ih := decodeArr_encodeArr xs (by simpa [wf] using h)
      simp only [encode]
      exact decode_jarr_ok ih
  | .pset xs, h => by
      have ih := decodeArr_encodeArr xs (by simpa [wf] using h)
      have hobj : decodeObj [("__set__", .jarr (encodeArr xs))] =
          .ok [("__set__", .plist xs)] := by
        simp only [decodeObj, decode_jarr_ok ih]
      simp only [encode]
      rw [decode_jobj hobj]
      simp [from_json, lookupKey]
  | .pcomplex r, _ => by
      have hobj : decodeObj [("__complex__", .jstr r)] =
          .ok [("__complex__", .pstr r)] := by
        simp only [decodeObj, decode_jstr]
      simp only [encode]
      rw [decode_jobj hobj]
      simp [from_json, lookupKey]
  | .pdict kvs, h => by
      simp only [wf, Bool.and_eq_true, decide_eq_true_eq] at h
      obtain ⟨⟨hnm, _⟩, hwf⟩ := h
      have ih := decodeObj_encodeObj kvs hwf
      simp only [encode]
      rw [decode_jobj ih]
      exact from_json_noMarkers kvs hnm
  | .ndarray dt shape data, h => by
      simp only [wf, Bool.and_eq_true, decide_eq_true_eq, List.all_eq_true] at h
      obtain ⟨hlen, hdata⟩ := h
      have hdata' : ∀ e ∈ data, e < 256 ^ dt.itemsize := fun e he => hdata e he
      have hraw : ∀ b ∈ bytesOfElems dt.itemsize data, b < 256 := bytesOfElems_lt_256 _ _
      have henv := decode_bytesEnvelope (b64encodeCodes (bytesOfElems dt.itemsize data))
        (fun c hc => lt_trans (b64encodeCodes_lt_128 _ c hc) (by norm_num))
      have hjint := decodeArr_map_jint shape
      have hobj : decodeObj
          [("__ndarray__", bytesEnvelope (b64encodeCodes (bytesOfElems dt.itemsize data))),
           ("dtype", .jstr dt.str),
           ("shape", .jarr (shape.map (fun n => .jint (Int.ofNat n))))] =
          .ok [("__ndarray__", .pbytes (b64encodeCodes (bytesOfElems dt.itemsize data))),
               ("dtype", .pstr dt.str),
               ("shape", .plist (shape.map (fun n => .pint (Int.ofNat n))))] := by
        simp only [decodeObj, henv, decode_jstr, decode_jarr_ok hjint]
      simp only [encode]
      rw [decode_jobj hobj]
      simp only [from_json, lookupKey]
      simp only [String.reduceEq, reduceIte, if_true]
      simp only [asB64Arg, except_bind_ok, b64decode_b64encode _ hraw,
        dtypeOfStr_str, except_bind_ok,
        elemsOfBytes_bytesOfElems dt.itemsize (Dtype.itemsize_pos dt) data hdata',
        shapeOfList_map, except_bind_ok]
      rw [if_pos hlen.symm]
  | .npgeneric dt v, h => by
      simp only [wf, Bool.and_eq_true, decide_eq_true_eq] at h
      obtain ⟨hne, hv⟩ := h
      cases dt with
      | f8 => exact absurd rfl hne
      | i8 =>
        have hraw : ∀ b ∈ toLEBytes 8 v, b < 256 := toLEBytes_lt_256 8 v
        have henv := decode_bytesEnvelope (b64encodeCodes (toLEBytes 8 v))
          (fun c hc => lt_trans (b64encodeCodes_lt_128 _ c hc) (by norm_num))
        have hflat : toLEBytes 8 v = bytesOfElems 8 [v] := by simp [bytesOfElems]
        have helems : elemsOfBytes 8 (toLEBytes 8 v) = .ok [v] := by
          rw [hflat]
          exact elemsOfBytes_bytesOfElems 8 (by norm_num) [v]
            (fun e he => by simp only [List.mem_singleton] at he; subst he; exact hv)
        have hobj : decodeObj
            [("__npgeneric__", bytesEnvelope (b64encodeCodes (toLEBytes 8 v))),
             ("dtype", .jstr Dtype.i8.str)] =
            .ok [("__npgeneric__", .pbytes (b64encodeCodes (toLEBytes 8 v))),
                 ("dtype", .pstr Dtype.i8.str)] := by
          simp only [decodeObj, henv, decode_jstr]
        simp only [encode]
        rw [decode_jobj hobj]
        simp only [from_json, lookupKey]
        simp only [String.reduceEq, reduceIte, if_true]
        simp only [asB64Arg, except_bind_ok, b64decode_b64encode _ hraw,
          dtypeOfStr_str, except_bind_ok, Dtype.itemsize, helems]
      | b1 =>
        have hraw : ∀ b ∈ toLEBytes 1 v, b < 256 := toLEBytes_lt_256 1 v
        have henv := decode_bytesEnvelope (b64encodeCodes (toLEBytes 1 v))
          (fun c hc => lt_trans (b64encodeCodes_lt_128 _ c hc) (by norm_num))
        have hflat : toLEBytes 1 v = bytesOfElems 1 [v] := by simp [bytesOfElems]
        have helems : elemsOfBytes 1 (toLEBytes 1 v) = .ok [v] := by
          rw [hflat]
          exact elemsOfBytes_bytesOfElems 1 (by norm_num) [v]
            (fun e he => by simp only [List.mem_singleton] at he; subst he; exact hv)
        have hobj : decodeObj
            [("__npgeneric__", bytesEnvelope (b64encodeCodes (toLEBytes 1 v))),
             ("dtype", .jstr Dtype.b1.str)] =
            .ok [("__npgeneric__", .pbytes (b64encodeCodes (toLEBytes 1 v))),
                 ("dtype", .pstr Dtype.b1.str)] := by
          simp only [decodeObj, henv, decode_jstr]
        simp only [encode]
        rw [decode_jobj hobj]
        simp only [from_json, lookupKey]
        simp only [String.reduceEq, reduceIte, if_true]
        simp only [asB64Arg, except_bind_ok, b64decode_b64encode _ hraw,
          dtypeOfStr_str, except_bind_ok, Dtype.itemsize, helems]
  | .ptuple _, h => by simp [wf] at h

theorem decodeArr_encodeArr : ∀ (xs : List PyVal), wfArr xs = true →
    decodeArr (encodeArr xs) = .ok xs
  | [], _ => rfl
  | x :: xs, h => by
      simp only [wfArr, Bool.and_eq_true] at h
      obtain ⟨hx, hxs⟩ := h
      simp only [encodeArr, decodeArr, decode_encode x hx, decodeArr_encodeArr xs hxs]

theorem decodeObj_encodeObj : ∀ (kvs : List (String × PyVal)), wfObj kvs = true →
    decodeObj (encodeObj kvs) = .ok kvs
  | [], _ => rfl
  | (k, v) :: kvs, h => by
      simp only [wfObj, Bool.and_eq_true] at h
      obtain ⟨hv, hkvs⟩ := h
      simp only [encodeObj, decodeObj, decode_encode v hv, decodeObj_encodeObj kvs hkvs]

end

/-- A concrete model-parameter document: multi-dimensional `float64`,
`int64` and bool arrays (covariance-matrix shaped), tagged numpy scalars,
a set, a complex repr, raw bytes, plain numbers and a nested list. -/
def sampleModelDoc : PyVal :=
  .pdict
    [("mu", .ndarray .f8 [2] [0x3FF8000000000000, 0xC000000000000000]),
     ("sigma", .ndarray .f8 [2, 2]
        [0x3FF0000000000000, 0x3FB999999999999A, 0x3FB999999999999A, 0x4000000000000000]),
     ("counts", .ndarray .i8 [2, 2] [1, 0xFFFFFFFFFFFFFFFE, 42, 0]),
     ("mask", .ndarray .b1 [2, 2] [0, 1, 1, 0]),
     ("n", .npgeneric .i8 0xFFFFFFFFFFFFFFFF),
     ("flag", .npgeneric .b1 1),
     ("tags", .pset [.pint 1, .pstr "a"]),
     ("z", .pcomplex "(1+2j)"),
     ("blob", .pbytes [0, 255, 61, 62]),
     ("epsilon", .pfloat 0x3FE0000000000000),
     ("f1_score", .pint 1),
     ("nested", .plist [.pnone, .pbool true, .plist [.pstr "x"]])]

/-- C1 (counterexample): the tuple envelope does not survive the round
trip.  `json.dumps` serializes a `tuple` as a JSON array before the
`default=to_json` hook is consulted, so `loads(dumps((1, 2)))` yields the
list `[1, 2]`, and in Python `(1, 2) == [1, 2]` is `False`. -/
theorem np_json_tuple_not_roundtrip :
    loads (dumps (.ptuple [.pint 1, .pint 2])) = .ok (.plist [.pint 1, .pint 2]) ∧
    PyVal.plist [.pint 1, .pint 2] ≠ PyVal.ptuple [.pint 1, .pint 2] :=
  ⟨rfl, fun h => PyVal.noConfusion h⟩

/-- C1 (amended): for every well-formed value of a model-parameter document
— including multi-dimensional arrays of dtypes `float64`, `int64` and bool,
and the tagged scalar, set, complex and bytes envelopes, but excluding
tuples (serialized as JSON arrays by the base encoder, they decode as
lists) and bare `float64` scalars (serialized as plain JSON numbers, they
decode as Python floats of equal value) — decoding the `np_json`-encoded
JSON reconstructs the value exactly: bit-identical array shape, dtype and
element byte patterns. -/
theorem np_json_roundtrip (x : PyVal) (h : wf x = true) :
    loads (dumps x) = .ok x :=
  decode_encode x h

/-- C1 witness: the round trip evaluated on the concrete document. -/
theorem np_json_roundtrip_witness :
    wf sampleModelDoc = true ∧ loads (dumps sampleModelDoc) = .ok sampleModelDoc :=
  ⟨by decide, np_json_roundtrip sampleModelDoc (by decide)⟩

end NpJson

namespace ML

/-! ### Shared argmax-scan lemmas

Both `gaussian.select_threshold_by_cv` and `DBSCAN._select_parameter` scan a
candidate list keeping the first candidate whose score strictly exceeds the
best so far. -/

theorem foldl_best_no_update {α : Type} (score : α → ℚ) (l : List α) (b0 : ℚ) (d : α)
    (h : ∀ x ∈ l, score x ≤ b0) :
    l.foldl (fun acc x => if acc.1 < score x then (score x, x) else acc) (b0, d) = (b0, d) := by
  induction l with
  | nil => rfl
  | cons y ys ih =>
    have hy : score y ≤ b0 := h y (by simp)
    simp only [List.foldl_cons, if_neg (by exact not_lt.mpr hy)]
    exact ih (fun x hx => h x (by simp [hx]))

theorem foldl_best_first {α : Type} (score : α → ℚ) (l : List α) (M : ℚ) (x0 : α) :
    ∀ (b0 : ℚ) (d : α), (∀ x ∈ l, score x ≤ M) → b0 < M →
      l.find? (fun x => decide (M ≤ score x)) = some x0 →
      l.foldl (fun acc x => if acc.1 < score x then (score x, x) else acc) (b0, d) = (M, x0) := by
  induction l with
  | nil => intro b0 d _ _ hfind; simp [List.find?] at hfind
  | cons y ys ih =>
    intro b0 d hub hb0 hfind
    rw [List.find?_cons] at hfind
    by_cases hy : M ≤ score y
    · simp only [decide_eq_true hy] at hfind
      have hy' : score y = M := le_antisymm (hub y (by simp)) hy
      injection hfind with hx0
      subst hx0
      simp only [List.foldl_cons, if_pos (lt_of_lt_of_le hb0 hy)]
      rw [hy']
      exact foldl_best_no_update score ys M y (fun x hx => hub x (by simp [hx]))
    · simp only [decide_eq_false hy] at hfind
      have hylt : score y < M := lt_of_not_ge hy
      simp only [List.foldl_cons]
      by_cases hupd : b0 < score y
      · rw [if_pos hupd]
        exact ih (score y) y (fun x hx => hub x (by simp [hx])) hylt hfind
      · rw [if_neg hupd]
        exact ih b0 d (fun x hx => hub x (by simp [hx])) hb0 hfind

/-! ### sklearn.metrics.f1_score with average="binary"

`f1 = 2 tp / (2 tp + fp + fn)`, and 0 when the denominator vanishes
(sklearn's zero-division behaviour). -/

def f1_score (y_true y_pred : List Bool) : ℚ :=
  let pairs := y_true.zip y_pred
  let tp := (pairs.filter (fun p => p.1 && p.2)).length
  let fp := (pairs.filter (fun p => !p.1 && p.2)).length
  let fn := (pairs.filter (fun p => p.1 && !p.2)).length
  if 2 * tp + fp + fn = 0 then 0
  else (2 * tp : ℚ) / ((2 * tp : ℚ) + (fp : ℚ) + (fn : ℚ))

theorem f1_score_no_positives (y_true y_pred : List Bool)
    (h : ∀ b ∈ y_true, b = false) : f1_score y_true y_pred = 0 := by
  have hz : ∀ p ∈ y_true.zip y_pred, p.1 = false :=
    fun p hp => h p.1 (List.of_mem_zip hp).1
  have htp : (y_true.zip y_pred).filter (fun p => p.1 && p.2) = [] := by
    rw [List.filter_eq_nil]
    intro p hp
    simp [hz p hp]
  have hfn : (y_true.zip y_pred).filter (fun p => p.1 && !p.2) = [] := by
    rw [List.filter_eq_nil]
    intro p hp
    simp [hz p hp]
  simp only [f1_score, htp, hfn, List.length_nil]
  norm_num

theorem f1_score_le_one (y_true y_pred : List Bool) : f1_score y_true y_pred ≤ 1 := by
  rw [f1_score]
  split
  · norm_num
  · next hden =>
    have hpos : 0 < 2 * ((y_true.zip y_pred).filter (fun p => p.1 && p.2)).length +
        ((y_true.zip y_pred).filter (fun p => !p.1 && p.2)).length +
        ((y_true.zip y_pred).filter (fun p => p.1 && !p.2)).length :=
      Nat.pos_of_ne_zero hden
    rw [div_le_one (by exact_mod_cast hpos)]
    have h1 : (0 : ℚ) ≤ (((y_true.zip y_pred).filter (fun p => !p.1 && p.2)).length : ℚ) := by
      positivity
    have h2 : (0 : ℚ) ≤ (((y_true.zip y_pred).filter (fun p => p.1 && !p.2)).length : ℚ) := by
      positivity
    linarith

/-! ### np.arange over exact rationals

`np.arange(start, stop, step)` with positive `step` produces
`ceil((stop - start) / step)` equally spaced values.  For the steps
occurring below, the float and rational element counts coincide. -/

def aRange (start stop step : ℚ) : List ℚ :=
  if step ≤ 0 then []
  else (List.range ((stop - start) / step).ceil.toNat).map
    (fun k => start + (k : ℚ) * step)

/-! ### gaussian.select_threshold_by_cv

Mirrors `ml/algorithms/gaussian.py`: candidate thresholds
`np.arange(min(probs), max(probs), (max(probs) - min(probs)) / 1000)`;
for each, points with log-density strictly below the candidate are
classified anomalous, scored by binary F1 against ground truth, and the
first candidate strictly improving the best F1 is retained.  The
accumulator starts at `(best_f1, best_epsilon) = (0, 0)`. -/

def pyMin : List ℚ → ℚ
  | [] => 0
  | x :: xs => xs.foldl min x

def pyMax : List ℚ → ℚ
  | [] => 0
  | x :: xs => xs.foldl max x

def thresholdCandidates (probs : List ℚ) : List ℚ :=
  aRange (pyMin probs) (pyMax probs) ((pyMax probs - pyMin probs) / 1000)

def cvScore (probs : List ℚ) (gt : List Bool) (epsilon : ℚ) : ℚ :=
  f1_score gt (probs.map (fun p => decide (p < epsilon)))

def select_threshold_by_cv (probs : List ℚ) (gt : List Bool) : ℚ × ℚ :=
  (thresholdCandidates probs).foldl
    (fun acc epsilon =>
      if acc.1 < cvScore probs gt epsilon then (cvScore probs gt epsilon, epsilon) else acc)
    (0, 0)

theorem thresholdCandidates_spacing (probs : List ℚ) (hnc : pyMin probs < pyMax probs) :
    thresholdCandidates probs =
      (List.range 1000).map
        (fun k => pyMin probs + (k : ℚ) * ((pyMax probs - pyMin probs) / 1000)) := by
  have hstep : 0 < (pyMax probs - pyMin probs) / 1000 :=
    div_pos (by linarith) (by norm_num)
  have hne : pyMax probs - pyMin probs ≠ 0 := by linarith
  have hcount : (pyMax probs - pyMin probs) / ((pyMax probs - pyMin probs) / 1000) = 1000 := by
    rw [div_div_eq_mul_div, mul_comm, mul_div_assoc, div_self hne, mul_one]
  have hceil : ((1000 : ℚ)).ceil = 1000 := by norm_num [Rat.ceil]
  have htn : ((1000 : Int)).toNat = 1000 := rfl
  simp only [thresholdCandidates, aRange, if_neg (not_le.mpr hstep), hcount, hceil, htn]

/-- C3 (amended): when some scanned candidate achieves a strictly positive
F1 score, `select_threshold_by_cv` returns the maximum F1 over the
candidates, and among candidates tying at that maximum the
earliest-scanned (lowest) threshold; the candidates are the 1000 values
linearly spaced from the minimum observed log-density with step
`(max - min) / 1000`.  (When every candidate scores 0, the accumulator
never updates and the initial pair `(0, 0)` is returned — `0` need not be
a scanned candidate; see the counterexample.) -/
theorem select_threshold_argmax (probs : List ℚ) (gt : List Bool) (M e0 : ℚ)
    (hnc : pyMin probs < pyMax probs)
    (hub : ∀ e ∈ thresholdCandidates probs, cvScore probs gt e ≤ M)
    (hpos : 0 < M)
    (hfind : (thresholdCandidates probs).find?
        (fun e => decide (M ≤ cvScore probs gt e)) = some e0) :
    thresholdCandidates probs =
      (List.range 1000).map
        (fun k => pyMin probs + (k : ℚ) * ((pyMax probs - pyMin probs) / 1000)) ∧
    select_threshold_by_cv probs gt = (M, e0) := by
  refine ⟨thresholdCandidates_spacing probs hnc, ?_⟩
  exact foldl_best_first (cvScore probs gt) (thresholdCandidates probs) M e0 0 0 hub hpos hfind

set_option maxRecDepth 100000 in
unseal Rat.mul Rat.inv Rat.add Rat.sub in
/-- C3 (counterexample): with log densities `[1, 2]` and all-negative
ground truth, every candidate threshold scores F1 = 0, so the scan never
updates and returns threshold `0` — which is not among the scanned
candidates (they are all at least `min(probs) = 1`), hence not the
earliest-scanned candidate attaining the maximal F1. -/
theorem select_threshold_cex :
    select_threshold_by_cv [1, 2] [false, false] = (0, 0) ∧
    (thresholdCandidates [1, 2]).contains 0 = false := by
  constructor
  · have hzero : ∀ e ∈ thresholdCandidates [1, 2], cvScore [1, 2] [false, false] e ≤ 0 := by
      intro e _
      rw [cvScore, f1_score_no_positives]
      intro b hb
      simp only [List.mem_cons, List.not_mem_nil, or_false] at hb
      rcases hb with h | h <;> exact h
    exact foldl_best_no_update (cvScore [1, 2] [false, false]) _ 0 0 hzero
  · decide

set_option maxRecDepth 100000 in
unseal Rat.mul Rat.inv Rat.add Rat.sub in
/-- C3 witness: on `probs = [0, 10]`, `gt = [true, false]`, the maximum F1
over the candidates is 1, first attained at the second candidate `1/100`. -/
theorem select_threshold_argmax_witness :
    select_threshold_by_cv [0, 10] [true, false] = (1, 1 / 100) :=
  (select_threshold_argmax [0, 10] [true, false] 1 (1 / 100)
    (by decide) (fun e _ => f1_score_le_one [true, false] _) (by norm_num) (by decide)).2

/-! ### DBSCAN._select_parameter

Mirrors `ml/algorithms/dbscan.py`: ε ranges over `np.arange(1, 4, 0.1)`
(30 values, outer loop ascending), min-samples over `range(5, 20, 1)`
(inner loop ascending); each pair is scored by
`adjusted_rand_score(labels_true, DBSCAN(eps, min_samples).fit(dataset).labels_)`.
The clustering-and-scoring pipeline (sklearn externals applied to the
standardized dataset and ground-truth labels) is abstracted as the score
function `score : ε → min_samples → ℚ`; the search logic itself is
embedded verbatim, with its initial accumulator
`(best_ar, best_ep, best_ms) = (0, 10, 5)`. -/

def epsilonsGrid : List ℚ := aRange 1 4 (1 / 10)

def minSamplesRange : List Nat := List.range' 5 15

def select_parameter (score : ℚ → Nat → ℚ) : ℚ × ℚ × Nat :=
  epsilonsGrid.foldl
    (fun acc epsilon =>
      minSamplesRange.foldl
        (fun acc min_samples =>
          if acc.1 < score epsilon min_samples
          then (score epsilon min_samples, epsilon, min_samples)
          else acc)
        acc)
    (0, 10, 5)

/-- The grid in iteration order: ε outer ascending, min-samples inner
ascending. -/
def paramGrid : List (ℚ × Nat) :=
  epsilonsGrid.flatMap (fun epsilon => minSamplesRange.map (fun ms => (epsilon, ms)))

/-- The model-parameter dict persisted by `DBSCAN.create_training`. -/
structure DBSCANModelData where
  adjusted_rand_score : ℚ
  epsilon : ℚ
  min_samples : Nat

/-- `DBSCAN.create_training` invokes the parameter search on the
standardized training data and persists the resulting triple in the model
envelope (`np_json.dumps` of the dict). -/
def dbscan_create_training (score : ℚ → Nat → ℚ) : DBSCANModelData :=
  let r := select_parameter score
  { adjusted_rand_score := r.1, epsilon := r.2.1, min_samples := r.2.2 }

theorem foldl_flatMap {α β γ : Type} (f : α → List γ) (g : β → γ → β)
    (l : List α) (init : β) :
    (l.flatMap f).foldl g init = l.foldl (fun acc a => (f a).foldl g acc) init := by
  induction l generalizing init with
  | nil => rfl
  | cons a as ih => simp only [List.flatMap_cons, List.foldl_append, List.foldl_cons, ih]

theorem select_parameter_eq_grid (score : ℚ → Nat → ℚ) :
    select_parameter score =
      paramGrid.foldl
        (fun acc p => if acc.1 < score p.1 p.2 then (score p.1 p.2, p) else acc)
        (0, (10, 5)) := by
  rw [paramGrid, foldl_flatMap]
  simp only [select_parameter, List.foldl_map]

/-- C4 (amended): whenever some grid pair achieves a strictly positive
adjusted-Rand-index, `_select_parameter` returns the maximum score over
the grid together with the first pair attaining it in iteration order
(ε outer ascending, min-samples inner ascending).  (When every pair
scores ≤ 0 the strict-improvement update never fires and the initial
out-of-grid values `(0, 10, 5)` are returned — see the counterexample.) -/
theorem select_parameter_argmax (score : ℚ → Nat → ℚ) (M : ℚ) (p0 : ℚ × Nat)
    (hub : ∀ p ∈ paramGrid, score p.1 p.2 ≤ M)
    (hpos : 0 < M)
    (hfind : paramGrid.find? (fun p => decide (M ≤ score p.1 p.2)) = some p0) :
    select_parameter score = (M, p0.1, p0.2) := by
  rw [select_parameter_eq_grid]
  exact foldl_best_first (fun p => score p.1 p.2) paramGrid M p0 0 (10, 5) hub hpos hfind

set_option maxRecDepth 100000 in
set_option maxHeartbeats 2000000 in
unseal Rat.mul Rat.inv Rat.add Rat.sub in
theorem epsilonsGrid_bounds : ∀ e ∈ epsilonsGrid, 1 ≤ e ∧ e < 4 := by decide

set_option maxRecDepth 100000 in
set_option maxHeartbeats 2000000 in
unseal Rat.mul Rat.inv Rat.add Rat.sub in
theorem epsilonsGrid_not_contains_ten : epsilonsGrid.contains 10 = false := by decide

/-- C4 (counterexample): when every grid pair scores 0 (as happens when
every candidate clustering collapses to a single label, e.g. on a tiny
all-noise dataset), the search returns `(0, 10, 5)` although ε = 10 is
not among the scanned ε candidates, so the returned pair is not the
first grid pair attaining the maximal score. -/
theorem select_parameter_cex :
    select_parameter (fun _ _ => (0 : ℚ)) = (0, 10, 5) ∧
    epsilonsGrid.contains 10 = false := by
  constructor
  · rw [select_parameter_eq_grid]
    exact foldl_best_no_update (fun _ => (0 : ℚ)) paramGrid 0 (10, 5) (fun _ _ => le_refl 0)
  · exact epsilonsGrid_not_contains_ten

set_option maxRecDepth 100000 in
set_option maxHeartbeats 2000000 in
unseal Rat.mul Rat.inv Rat.add Rat.sub in
/-- C4 witness: a score function peaking (with value 1) at the first grid
pair `(1, 5)`. -/
theorem select_parameter_argmax_witness :
    select_parameter (fun e ms => if e = 1 ∧ ms = 5 then (1 : ℚ) else 0) = (1, 1, 5) :=
  select_parameter_argmax (fun e ms => if e = 1 ∧ ms = 5 then (1 : ℚ) else 0) 1 (1, 5)
    (fun p _ => by dsimp only; split <;> norm_num) (by norm_num) (by decide)

/-- C10: when every grid pair scores ≤ 0, `_select_parameter` returns the
initial values `(0, 10, 5)`; ε = 10 lies outside the scanned ε range
(every scanned ε satisfies 1 ≤ ε < 4), and `DBSCAN.create_training`
persists exactly these out-of-grid parameters in the model envelope. -/
theorem select_parameter_default (score : ℚ → Nat → ℚ)
    (h : ∀ p ∈ paramGrid, score p.1 p.2 ≤ 0) :
    select_parameter score = (0, 10, 5) ∧
    dbscan_create_training score =
      { adjusted_rand_score := 0, epsilon := 10, min_samples := 5 } ∧
    (∀ e ∈ epsilonsGrid, 1 ≤ e ∧ e < 4) ∧
    epsilonsGrid.contains 10 = false := by
  have hsel : select_parameter score = (0, 10, 5) := by
    rw [select_parameter_eq_grid]
    exact foldl_best_no_update (fun p => score p.1 p.2) paramGrid 0 (10, 5) h
  refine ⟨hsel, ?_, epsilonsGrid_bounds, epsilonsGrid_not_contains_ten⟩
  rw [dbscan_create_training, hsel]

/-- C10 witness: the all-zero score function. -/
theorem select_parameter_default_witness :
    select_parameter (fun _ _ => (0 : ℚ)) = (0, 10, 5) ∧
    dbscan_create_training (fun _ _ => (0 : ℚ)) =
      { adjusted_rand_score := 0, epsilon := 10, min_samples := 5 } :=
  ⟨(select_parameter_default (fun _ _ => 0) (fun _ _ => le_refl 0)).1,
   (select_parameter_default (fun _ _ => 0) (fun _ _ => le_refl 0)).2.1⟩

end ML

namespace Cfg

/-! ### anomaly_detection/utils/config.py

The option registry.  Config values are modelled by `CVal` (`vnone` is
Python `None`); a type validator (`Opt.type`) is an arbitrary coercion
callable returning either the coerced value or the raised exception,
classified by `CfgErr` into the exception classes of the source.  -/

inductive CVal where
  | vnone
  | vbool (b : Bool)
  | vint (n : Int)
  | vstr (s : String)
deriving DecidableEq, Repr

inductive CfgErr where
  | valueErr (msg : String)
  | noSuchOpt (name : String)
  | noSuchGroup (group : String)
  | requiredOpt (name : String)
  | keyErr (name : String)
  | attrErr (msg : String)
deriving DecidableEq, Repr

structure Opt where
  name : String
  type : CVal → Except CfgErr CVal
  default : CVal
  required : Bool

structure OptGroup where
  name : String
  opts : List (String × Opt)

/-- Result of `ConfigOpts._do_get`: an option value, or a `GroupAttr` view
(modelled by the group name it is scoped to). -/
inductive GotVal where
  | val (v : CVal)
  | groupAttr (group : String)
deriving DecidableEq, Repr

/-- First-match association lookup (Python dict indexing; keys are unique). -/
def alookup {κ α : Type} [DecidableEq κ] (l : List (κ × α)) (k : κ) : Option α :=
  match l with
  | [] => none
  | (k', v) :: rest => if k' = k then some v else alookup rest k

/-- Python dict assignment `d[k] = v`. -/
def aset {κ α : Type} [DecidableEq κ] (l : List (κ × α)) (k : κ) (v : α) : List (κ × α) :=
  match l with
  | [] => [(k, v)]
  | (k', v') :: rest => if k' = k then (k, v) :: rest else (k', v') :: aset rest k v

/-- In-place mutation `opt.default = d` of the `Opt` stored under `name`. -/
def updOptDefault (l : List (String × Opt)) (name : String) (d : CVal) :
    List (String × Opt) :=
  l.map (fun kv => if kv.1 = name then (kv.1, { kv.2 with default := d }) else kv)

/-- `ConfigOpts` state: `_opts`, `_groups` (each group with its own
`_opts`), `_namespace` (the parsed config file: section → option → raw
string, `none` standing for `NoSectionError`/`NoOptionError`), and the
resolution cache `__cache` keyed by `(group, name)`. -/
structure ConfigOpts where
  opts : List (String × Opt)
  groups : List (String × List (String × Opt))
  ns : Option (String → String → Option String)
  cache : List ((Option String × String) × GotVal)

def emptyConf : ConfigOpts :=
  { opts := [], groups := [], ns := none, cache := [] }

/-- `ConfigOpts._get_opt_info`: the stored `Opt`, raising `KeyError` for an
unregistered name and `NoSuchGroupError` for an unregistered group. -/
def ConfigOpts.get_opt_info (c : ConfigOpts) (name : String) (group : Option String) :
    Except CfgErr Opt :=
  match group with
  | none =>
      match alookup c.opts name with
      | some opt => .ok opt
      | none => .error (.keyErr name)
  | some g =>
      match alookup c.groups g with
      | none => .error (.noSuchGroup g)
      | some gopts =>
          match alookup gopts name with
          | some opt => .ok opt
          | none => .error (.keyErr name)

/-- `Opt._get_from_namespace`: `namespace.get(group_name or 'DEFAULT',
self.name)`, `none` when the parser raises
`NoOptionError`/`NoSectionError`. -/
def nsOverride (c : ConfigOpts) (group : Option String) (optName : String) : Option String :=
  match c.ns with
  | none => none
  | some f => f (group.getD "DEFAULT") optName

/-- `ConfigOpts._do_get`: a `GroupAttr` for a bare group name; otherwise
the namespace override coerced by the opt's type (coercion `ValueError`s
propagate, `NoOptionError`/`NoSectionError` falls through), else the
coerced registered default when it is not `None`, else `None`.  The
`required` flag is never consulted. -/
def ConfigOpts.do_get (c : ConfigOpts) (name : String) (group : Option String) :
    Except CfgErr GotVal :=
  if group = none ∧ (alookup c.groups name).isSome then .ok (.groupAttr name)
  else
    match c.get_opt_info name group with
    | .error e => .error e
    | .ok opt =>
        match (nsOverride c group opt.name).map (fun raw => opt.type (.vstr raw)) with
        | some r => GotVal.val <$> r
        | none =>
            if opt.default ≠ .vnone then GotVal.val <$> opt.type opt.default
            else .ok (.val .vnone)

/-- `ConfigOpts._get`: consult the cache, else `_do_get` and cache the
value (exceptions are not cached). -/
def ConfigOpts.c_get (c : ConfigOpts) (name : String) (group : Option String) :
    Except CfgErr GotVal × ConfigOpts :=
  match alookup c.cache (group, name) with
  | some v => (.ok v, c)
  | none =>
      match c.do_get name group with
      | .ok v => (.ok v, { c with cache := ((group, name), v) :: c.cache })
      | .error e => (.error e, c)

/-- `ConfigOpts.__getattr__` (also `__getitem__`): `_get`, re-raising
`ValueError`s unchanged and converting every other failure into the
distinct `NoSuchOptError`. -/
def ConfigOpts.getattr_ (c : ConfigOpts) (name : String) :
    Except CfgErr GotVal × ConfigOpts :=
  match c.c_get name none with
  | (.ok v, c') => (.ok v, c')
  | (.error (.valueErr m), c') => (.error (.valueErr m), c')
  | (.error _, c') => (.error (.noSuchOpt name), c')

/-- `ConfigOpts.register_group`: first registration wins, later ones are
no-ops.  Note: this mutator does NOT carry the `@__clear_cache`
decorator in the source. -/
def ConfigOpts.register_group (c : ConfigOpts) (group : OptGroup) : ConfigOpts :=
  if (alookup c.groups group.name).isSome then c
  else { c with groups := aset c.groups group.name group.opts }

/-- `ConfigOpts.register_opt` body without the cache-clearing decorator
(the `clear_cache=False` path used by `register_opts`). -/
def ConfigOpts.register_opt_nc (c : ConfigOpts) (opt : Opt) (group : Option String) :
    ConfigOpts :=
  match group with
  | none => { c with opts := aset c.opts opt.name opt }
  | some g =>
      let c1 := c.register_group { name := g, opts := [] }
      { c1 with
        groups := c1.groups.map
          (fun kv => if kv.1 = g then (kv.1, aset kv.2 opt.name opt) else kv) }

/-- `ConfigOpts.register_opt` (decorated: clears the cache on success). -/
def ConfigOpts.register_opt (c : ConfigOpts) (opt : Opt) (group : Option String) :
    ConfigOpts :=
  let c' := c.register_opt_nc opt group
  { c' with cache := [] }

/-- `ConfigOpts.register_opts`: registers each opt with
`clear_cache=False`, then the decorator clears the cache once. -/
def ConfigOpts.register_opts (c : ConfigOpts) (opts : List Opt) (group : Option String) :
    ConfigOpts :=
  let c' := opts.foldl (fun acc o => acc.register_opt_nc o group) c
  { c' with cache := [] }

/-- `ConfigOpts.set_default`: coerce the new default eagerly and store it
on the registered opt; the decorator clears the cache only when no
exception escapes. -/
def ConfigOpts.set_default (c : ConfigOpts) (name : String) (default : CVal)
    (group : Option String) : Except CfgErr Unit × ConfigOpts :=
  match c.get_opt_info name group with
  | .error e => (.error e, c)
  | .ok opt =>
      match opt.type default with
      | .error e => (.error e, c)
      | .ok v =>
          let c' :=
            match group with
            | none => { c with opts := updOptDefault c.opts name v }
            | some g =>
                { c with
                  groups := c.groups.map
                    (fun kv : String × List (String × Opt) =>
                      if kv.1 = g then (kv.1, updOptDefault kv.2 name v) else kv) }
          (.ok (), { c' with cache := [] })

/-! Concrete type validators from the source, for the closed instances. -/

/-- Python `str.lower()` (ASCII range, which covers all values appearing
in this configuration system). -/
def pyLower (s : String) : String :=
  String.mk (s.data.map (fun c =>
    if 65 ≤ c.toNat ∧ c.toNat ≤ 90 then Char.ofNat (c.toNat + 32) else c))

/-- Python `str(value)` on scalar config values.  (List-valued options —
the `List` type with its backtracking comma reassembly — are outside the
scope of the claims and are not modelled.) -/
def pyStr : CVal → String
  | .vnone => "None"
  | .vbool b => if b then "True" else "False"
  | .vint n => toString n
  | .vstr s => s

/-- `String.__call__` with no choices/regex/quotes/max-length. -/
def stringType (v : CVal) : Except CfgErr CVal := .ok (.vstr (pyStr v))

/-- `Boolean.__call__`: `bool` passes through; strings are matched
case-insensitively against the true/false vocabularies; other values hit
`value.lower()` and raise `AttributeError`. -/
def booleanType (v : CVal) : Except CfgErr CVal :=
  match v with
  | .vbool b => .ok (.vbool b)
  | .vstr s =>
      let l := pyLower s
      if l ∈ ["true", "1", "on", "yes"] then .ok (.vbool true)
      else if l ∈ ["false", "0", "off", "no"] then .ok (.vbool false)
      else .error (.valueErr ("Unexpected boolean value " ++ s))
  | _ => .error (.attrErr "lower")

theorem alookup_updOptDefault (l : List (String × Opt)) (name : String) (d : CVal)
    (opt : Opt) (h : alookup l name = some opt) :
    alookup (updOptDefault l name d) name = some { opt with default := d } := by
  induction l with
  | nil => simp [alookup] at h
  | cons kv rest ih =>
    obtain ⟨k, o⟩ := kv
    by_cases hk : k = name
    · subst hk
      simp only [alookup, if_pos rfl] at h
      injection h with h
      subst h
      have hstep : updOptDefault ((k, o) :: rest) k d =
          (k, { o with default := d }) :: updOptDefault rest k d := by
        simp [updOptDefault]
      rw [hstep]
      simp [alookup]
    · simp only [alookup, if_neg hk] at h
      have hstep : updOptDefault ((k, o) :: rest) name d =
          (k, o) :: updOptDefault rest name d := by
        simp [updOptDefault, hk]
      rw [hstep]
      simp only [alookup, if_neg hk]
      exact ih h

/-- C2: for a registered option, `_do_get` returns the type-coerced
namespace override when one is present (coercion errors propagating
unchanged), otherwise the type-coerced registered default when that is
not `None`, otherwise `None`; and resolving a never-registered name via
`__getattr__`/`__getitem__` raises the distinct `NoSuchOptError`. -/
theorem config_lookup_precedence (c : ConfigOpts) (name name2 : String)
    (group : Option String) (opt : Opt) :
    (c.get_opt_info name group = .ok opt →
      (group = none → alookup c.groups name = none) →
      c.do_get name group =
        match (nsOverride c group opt.name).map (fun raw => opt.type (.vstr raw)) with
        | some r => GotVal.val <$> r
        | none =>
            if opt.default ≠ .vnone then GotVal.val <$> opt.type opt.default
            else .ok (.val .vnone)) ∧
    (alookup c.opts name2 = none → alookup c.groups name2 = none →
      alookup c.cache (none, name2) = none →
      (c.getattr_ name2).1 = .error (.noSuchOpt name2)) := by
  constructor
  · intro hreg hshadow
    have hcond : ¬(group = none ∧ (alookup c.groups name).isSome) := by
      rintro ⟨hg, hsome⟩
      rw [hshadow hg] at hsome
      simp at hsome
    simp only [ConfigOpts.do_get, if_neg hcond, hreg]
  · intro hopts hgroups hcache
    simp only [ConfigOpts.getattr_, ConfigOpts.c_get, hcache, ConfigOpts.do_get,
      ConfigOpts.get_opt_info, hopts, hgroups, Option.isSome_none, and_false, if_false,
      Bool.false_eq_true]

/-- Concrete options and state for the C2 witness: a boolean option with a
file override, a boolean option falling back to its string default, and a
never-registered name. -/
def wVerboseOpt : Opt :=
  { name := "verbose", type := booleanType, default := .vnone, required := false }

def wDebugOpt : Opt :=
  { name := "debug", type := booleanType, default := .vstr "no", required := false }

def wConf : ConfigOpts :=
  { opts := [("verbose", wVerboseOpt), ("debug", wDebugOpt)],
    groups := [],
    ns := some (fun sec n => if sec = "DEFAULT" ∧ n = "verbose" then some "yes" else none),
    cache := [] }

/-- C2 witness: override coerced (`"yes"` → `True`), default coerced
(`"no"` → `False`), unregistered name → `NoSuchOptError`. -/
theorem config_lookup_precedence_witness :
    wConf.do_get "verbose" none = .ok (.val (.vbool true)) ∧
    wConf.do_get "debug" none = .ok (.val (.vbool false)) ∧
    (wConf.getattr_ "missing").1 = .error (.noSuchOpt "missing") := by
  refine ⟨?_, ?_, ?_⟩
  · exact ((config_lookup_precedence wConf "verbose" "missing" none wVerboseOpt).1
      rfl (fun _ => rfl)).trans (by rfl)
  · exact ((config_lookup_precedence wConf "debug" "missing" none wDebugOpt).1
      rfl (fun _ => rfl)).trans (by rfl)
  · exact (config_lookup_precedence wConf "debug" "missing" none wDebugOpt).2 rfl rfl rfl

/-- The option of the C9 instance: `required=True`, no default. -/
def requiredOpt_x : Opt :=
  { name := "x", type := stringType, default := .vnone, required := true }

def requiredConf : ConfigOpts := emptyConf.register_opt requiredOpt_x none

/-- C9: an option registered with `required=True`, no override and no
default resolves to `None` — no `RequiredOptError` (or any error) is
raised, although the source defines that exception class precisely for
this situation: `_do_get` never consults `opt.required`. -/
theorem required_opt_silently_none :
    (requiredConf.getattr_ "x").1 = .ok (.val .vnone) ∧
    (alookup requiredConf.opts "x").map Opt.required = some true :=
  ⟨rfl, rfl⟩

/-- C5 (amended): `register_opt`, `register_opts` and a successful
`set_default` clear the resolution cache, so the next resolution of
every (group, name) key is computed by `_do_get` from the post-mutation
state; in particular, after `set_default(name, v)` on a top-level option
with no file override, resolution returns the stored coerced default
re-coerced, `coerce (coerce v)`.  `register_group`, by contrast, carries
no cache-clearing decorator (see the counterexample). -/
theorem cache_invalidation (c : ConfigOpts) (opt : Opt) (opts : List Opt) (v w : CVal)
    (name n : String) (g gn : Option String) (c' : ConfigOpts) :
    ((c.register_opt opt g).cache = [] ∧
     (c.register_opts opts g).cache = [] ∧
     (c.set_default name v g = (.ok (), c') → c'.cache = [])) ∧
    (c.cache = [] → (c.c_get n gn).1 = c.do_get n gn) ∧
    (alookup c.opts name = some opt → opt.type v = .ok w → w ≠ .vnone →
      c.ns = none → alookup c.groups name = none →
      c.set_default name v none = (.ok (), c') →
      c'.do_get name none = GotVal.val <$> opt.type w) := by
  refine ⟨⟨rfl, rfl, ?_⟩, ?_, ?_⟩
  · intro hset
    rw [ConfigOpts.set_default] at hset
    cases hinfo : c.get_opt_info name g with
    | error e =>
      simp [hinfo] at hset
    | ok opt' =>
      cases htype : opt'.type v with
      | error e =>
        simp [hinfo, htype] at hset
      | ok w' =>
        simp only [hinfo, htype] at hset
        have := congrArg Prod.snd hset
        simp only at this
        rw [← this]
  · intro hc
    rw [ConfigOpts.c_get, hc]
    cases hr : c.do_get n gn with
    | ok v0 => simp [alookup, hr]
    | error e => simp [alookup, hr]
  · intro hreg htype hw hns hshadow hset
    rw [ConfigOpts.set_default] at hset
    have hinfo : c.get_opt_info name none = .ok opt := by
      simp only [ConfigOpts.get_opt_info, hreg]
    simp only [hinfo, htype] at hset
    have hc' := congrArg Prod.snd hset
    simp only at hc'
    rw [← hc']
    have hlook : alookup (updOptDefault c.opts name w) name = some { opt with default := w } :=
      alookup_updOptDefault c.opts name w opt hreg
    have hinfo' : ConfigOpts.get_opt_info
        { c with opts := updOptDefault c.opts name w, cache := [] } name none =
        .ok { opt with default := w } := by
      simp only [ConfigOpts.get_opt_info, hlook]
    have hcond : ¬((none : Option String) = none ∧
        (alookup (c.groups) name).isSome) := by
      rintro ⟨_, hsome⟩
      rw [hshadow] at hsome
      simp at hsome
    simp only [ConfigOpts.do_get, if_neg hcond, hinfo']
    simp [nsOverride, hns, hw, hshadow]

/-- State chain for the C5 counterexample: a top-level option named `g`
is registered and resolved (priming the cache), then a group named `g`
is registered. -/
def staleOpt : Opt :=
  { name := "g", type := stringType, default := .vstr "x", required := false }

def staleC1 : ConfigOpts := emptyConf.register_opt staleOpt none

def staleC2 : ConfigOpts := (staleC1.getattr_ "g").2

def staleC3 : ConfigOpts := staleC2.register_group { name := "g", opts := [] }

/-- C5 (counterexample): `register_group` does not invalidate the cache.
After registering a group that shadows a cached top-level option name,
resolution still returns the stale cached value, while an uncached
`_do_get` on the post-mutation state would return the group view. -/
theorem register_group_stale_cache :
    (staleC3.getattr_ "g").1 = .ok (.val (.vstr "x")) ∧
    staleC3.do_get "g" none = .ok (.groupAttr "g") ∧
    GotVal.val (.vstr "x") ≠ GotVal.groupAttr "g" :=
  ⟨rfl, rfl, fun h => GotVal.noConfusion h⟩

/-- The boolean option mutated in the C5 witness. -/
def flagOpt : Opt :=
  { name := "flag", type := booleanType, default := .vbool false, required := false }

def flagConf : ConfigOpts := emptyConf.register_opt flagOpt none

/-- C5 witness: after `set_default("flag", "on")` the next resolution
re-coerces the stored coerced default (`"on"` → `True` → `True`). -/
theorem cache_invalidation_witness :
    (flagConf.set_default "flag" (.vstr "on") none).2.do_get "flag" none =
      GotVal.val <$> flagOpt.type (.vbool true) :=
  (cache_invalidation flagConf flagOpt [] (.vstr "on") (.vbool true) "flag" "flag"
      none none ((flagConf.set_default "flag" (.vstr "on") none).2)).2.2
    rfl rfl (fun h => CVal.noConfusion h) rfl rfl rfl

end Cfg

namespace ML

/-! ### ml/manager.py and the dataset sources

`MLManager` resolves the driver by lowercased algorithm name through the
static `_ALGORITHM_MAPPING` (a `KeyError` escapes for unknown names),
then orchestrates train → persist and load → render → rasterize flows.
Driver behaviour (the statistical routines) and the Agg canvas are
abstracted as functions in `MLEnv`; invocations that matter to the
claims are recorded as events in order. -/

structure Training where
  algorithm : String
  model_data : String
deriving DecidableEq, Repr

inductive Algo where
  | gaussian
  | dbscan
deriving DecidableEq, Repr

def ALGORITHM_MAPPING : List (String × String) :=
  [("gaussian", "anomaly_detection.ml.algorithms.gaussian.Gaussian"),
   ("dbscan", "anomaly_detection.ml.algorithms.dbscan.DBSCAN")]

def import_object (path : String) : Option Algo :=
  if path = "anomaly_detection.ml.algorithms.gaussian.Gaussian" then some .gaussian
  else if path = "anomaly_detection.ml.algorithms.dbscan.DBSCAN" then some .dbscan
  else none

inductive MLErr where
  | keyErr (k : String)
  | importErr (path : String)
  | notFound (id : String)
  | typeErr (msg : String)
deriving DecidableEq, Repr

/-- `MLManager._get_algorithm`: `import_object(self._ALGORITHM_MAPPING[name.lower()])`. -/
def get_algorithm (name : String) : Except MLErr Algo :=
  match Cfg.alookup ALGORITHM_MAPPING (Cfg.pyLower name) with
  | none => .error (.keyErr (Cfg.pyLower name))
  | some path =>
      match import_object path with
      | some a => .ok a
      | none => .error (.importErr path)

inductive Event where
  | trainingCreateCall
  | trainingGetCall
  | figureRoutineCall
deriving DecidableEq, Repr

structure Figure where
  id : Nat
deriving DecidableEq, Repr

structure MLEnv where
  trainings : List (String × Training)
  figureOf : Algo → Training → Figure
  trainOf : Algo → Training → String
  raster : Figure → String → List Nat
  newId : String

def supportedFormats : List String := ["png", "jpg", "jpeg", "raw", "tif", "tiff", "rgba"]

/-- `manager.print_figure`: the format check happens here, before
rasterizing — but `print_figure` itself is only called after the driver
has produced the figure. -/
def print_figure (raster : Figure → String → List Nat) (fig : Figure) (fmt : String) :
    Except MLErr (List Nat) :=
  if ¬ (fmt ∈ supportedFormats) then .error (.typeErr ("unsupported image type: " ++ fmt))
  else .ok (raster fig fmt)

/-- `MLManager.create_training`: resolve the driver from the spec's
`algorithm` field, run its training routine, attach the serialized
parameters as `model_data`, persist via `db.training_create`.  Returns
the result, the persistence events issued, and the post-call store. -/
def MLManager.create_training (env : MLEnv) (training : Training) :
    Except MLErr Training × List Event × MLEnv :=
  match get_algorithm training.algorithm with
  | .error e => (.error e, [], env)
  | .ok a =>
      let training' := { training with model_data := env.trainOf a training }
      (.ok training', [.trainingCreateCall],
       { env with trainings := env.trainings ++ [(env.newId, training')] })

/-- `MLManager.get_training_figure`: load the record, resolve the driver,
invoke the driver's figure routine, and only then rasterize through
`print_figure` in the requested format. -/
def MLManager.get_training_figure (env : MLEnv) (training_id : String) (fmt : String) :
    Except MLErr (List Nat) × List Event :=
  match Cfg.alookup env.trainings training_id with
  | none => (.error (.notFound training_id), [.trainingGetCall])
  | some training =>
      match get_algorithm training.algorithm with
      | .error e => (.error e, [.trainingGetCall])
      | .ok a =>
          let fig := env.figureOf a training
          (print_figure env.raster fig fmt, [.trainingGetCall, .figureRoutineCall])

/-- C6 (amended): an unsupported format fails hard with the
"unsupported image type" `TypeError`, but only after the algorithm's
estimation/clustering figure routine has run: the format check lives in
`print_figure`, which the manager calls on the figure the driver already
produced. -/
theorem unsupported_format_after_figure (env : MLEnv) (tid fmt : String)
    (t : Training) (a : Algo)
    (ht : Cfg.alookup env.trainings tid = some t)
    (ha : get_algorithm t.algorithm = .ok a)
    (hfmt : ¬ fmt ∈ supportedFormats) :
    (MLManager.get_training_figure env tid fmt).1 =
      .error (.typeErr ("unsupported image type: " ++ fmt)) ∧
    Event.figureRoutineCall ∈ (MLManager.get_training_figure env tid fmt).2 := by
  simp only [MLManager.get_training_figure, ht, ha, print_figure, if_pos hfmt]
  simp

/-- Concrete environment for the manager instances. -/
def cexEnv : MLEnv :=
  { trainings := [("t1", { algorithm := "gaussian", model_data := "md" })],
    figureOf := fun _ _ => { id := 7 },
    trainOf := fun _ _ => "model",
    raster := fun fig _ => [fig.id],
    newId := "id1" }

/-- C6 (counterexample): requesting format `"bmp"` raises the
"unsupported image type" error, yet the figure routine HAS been invoked
(the trace contains the invocation), contradicting the claim that the
error occurs without invoking it. -/
theorem unsupported_format_cex :
    (MLManager.get_training_figure cexEnv "t1" "bmp").1 =
      .error (.typeErr "unsupported image type: bmp") ∧
    Event.figureRoutineCall ∈ (MLManager.get_training_figure cexEnv "t1" "bmp").2 :=
  ⟨rfl, by decide⟩

/-- C6 witness: the amended theorem at format `"gif"`. -/
theorem unsupported_format_after_figure_witness :
    (MLManager.get_training_figure cexEnv "t1" "gif").1 =
      .error (.typeErr ("unsupported image type: " ++ "gif")) ∧
    Event.figureRoutineCall ∈ (MLManager.get_training_figure cexEnv "t1" "gif").2 :=
  unsupported_format_after_figure cexEnv "t1" "gif"
    { algorithm := "gaussian", model_data := "md" } .gaussian rfl rfl (by decide)

/-- C7: a training spec whose lowercased algorithm name is not a key of
the static mapping fails in the driver-lookup step with the mapping
`KeyError`: no persistence event is issued and the store is unchanged.
Known names resolve case-insensitively to their drivers, with no
fallback. -/
theorem unknown_algorithm_no_persist (env : MLEnv) (t : Training) (s1 s2 : String) :
    (Cfg.pyLower t.algorithm ≠ "gaussian" → Cfg.pyLower t.algorithm ≠ "dbscan" →
      (MLManager.create_training env t).1 = .error (.keyErr (Cfg.pyLower t.algorithm)) ∧
      (MLManager.create_training env t).2.1 = [] ∧
      (MLManager.create_training env t).2.2 = env) ∧
    (Cfg.pyLower s1 = "gaussian" → get_algorithm s1 = .ok .gaussian) ∧
    (Cfg.pyLower s2 = "dbscan" → get_algorithm s2 = .ok .dbscan) := by
  refine ⟨?_, ?_, ?_⟩
  · intro hg hd
    have hmap : Cfg.alookup ALGORITHM_MAPPING (Cfg.pyLower t.algorithm) = none := by
      simp only [ALGORITHM_MAPPING, Cfg.alookup]
      rw [if_neg (fun h => hg h.symm), if_neg (fun h => hd h.symm)]
    simp only [MLManager.create_training, get_algorithm, hmap]
    simp
  · intro hs
    simp only [get_algorithm, hs]
    rfl
  · intro hs
    simp only [get_algorithm, hs]
    rfl

/-- C7 witness: `"foo"` fails before persistence; `"GAUSSIAN"` and
`"DBScan"` resolve case-insensitively. -/
theorem unknown_algorithm_no_persist_witness :
    (MLManager.create_training cexEnv { algorithm := "foo", model_data := "" }).1 =
      .error (.keyErr "foo") ∧
    (MLManager.create_training cexEnv { algorithm := "foo", model_data := "" }).2.2 =
      cexEnv ∧
    get_algorithm "GAUSSIAN" = .ok .gaussian ∧
    get_algorithm "DBScan" = .ok .dbscan := by
  have h := unknown_algorithm_no_persist cexEnv { algorithm := "foo", model_data := "" }
    "GAUSSIAN" "DBScan"
  have h1 := h.1 (by decide) (by decide)
  exact ⟨h1.1, h1.2.2, h.2.1 (by decide), h.2.2 (by decide)⟩

/-! ### ml/csv/__init__.py and CSVDataSet (ml/algorithm.py)

The delimited file is modelled as its parsed row list, header row
included. -/

/-- `csv.read`: `skip_header += 1` (for the title row), then
`genfromtxt(..., skip_header=skip_header, max_rows=max_rows)`, which
skips `skip_header` rows and returns at most `max_rows` of the rest. -/
def csv_read {α : Type} (file : List α) (skip_header : Nat) (max_rows : Nat) : List α :=
  (file.drop (skip_header + 1)).take max_rows

/-- `CSVDataSet.get(offset, limit)`:
`csv.read(file, skip_header=offset, max_rows=offset+limit)`. -/
def CSVDataSet.get {α : Type} (file : List α) (offset : Nat) (limit : Nat) : List α :=
  csv_read file offset (offset + limit)

/-- The parsed file of the C8 instance: a header row followed by eight
data rows. -/
def csvFile8 : List Nat := [100, 1, 2, 3, 4, 5, 6, 7, 8]

/-- C8: `get(offset, limit)` does skip the header row plus `offset` data
rows, but passes `max_rows = offset + limit` to `genfromtxt`, so it can
return up to `offset + limit` rows — here `get(2, 3)` returns 5 rows,
exceeding `limit = 3`. -/
theorem csv_get_exceeds_limit :
    CSVDataSet.get csvFile8 2 3 = [3, 4, 5, 6, 7] ∧
    (CSVDataSet.get csvFile8 2 3).length = 5 ∧
    ¬ (CSVDataSet.get csvFile8 2 3).length ≤ 3 :=
  ⟨rfl, rfl, by decide⟩

end ML
